import Mathlib

/-!
Verification of the dogstatsd ingestion core of `libdatadog`
(`src/dogstatsd/src/dogstatsd.rs`).

The shallow embedding below translates the ingestion pipeline of
`dogstatsd.rs` into executable Lean definitions:

* `BufferReader.read` — the datagram source (`BufferReader::read`), with the
  live UDP variant modelled as filling a fixed 8192-byte buffer and the
  mirror variant replaying a fixed buffer;
* `consume_statsd` — one iteration of datagram consumption
  (`DogStatsD::consume_statsd`): UTF-8 decode (which the source treats as
  fatal via `expect`), split on line-feed, and `insert_metrics`;
* `insert_metrics` — frame filtering, per-line parsing with error logging,
  and the batch insert performed under a single lock acquisition
  (`DogStatsD::insert_metrics`); lock acquisition and release and each
  insert call are recorded as an explicit event trace;
* `spinLoop` — the cancellation-checked ingestion loop (`DogStatsD::spin`),
  made total with a fuel parameter; `cancelled i` is the value the
  cancellation token reports at the check that follows iteration `i`, and
  `dgrams i` is the datagram delivered to iteration `i`.

The crate modules `metric.rs` (the wire parser) and `aggregator.rs` (the
bounded aggregation table) are not among the provided sources; they are
modelled from the specification and marked `Modelled from the spec:` in
their doc comments.  Datagram bytes are `List UInt8`, text is `List Char`,
and metric values are exact rationals standing in for the 64-bit floats of
the source (none of the verified properties depend on rounding).
-/

/-! ## Bytes and UTF-8 decoding -/

/-- Checks that a byte is a UTF-8 continuation byte (`10xxxxxx`). -/
def contByte (b : UInt8) : Bool :=
  0x80 ≤ b.toNat && b.toNat < 0xC0

/-- Decodes a byte sequence as UTF-8, as `std::str::from_utf8` does:
`none` exactly when the bytes are not valid UTF-8 (stray continuation
bytes, truncated sequences, overlong encodings, surrogates and
out-of-range code points are all rejected). -/
def utf8Decode? : List UInt8 → Option (List Char)
  | [] => some []
  | b1 :: rest =>
    if b1.toNat < 0x80 then
      (utf8Decode? rest).map (fun cs => Char.ofNat b1.toNat :: cs)
    else if b1.toNat < 0xC2 then none
    else if b1.toNat < 0xE0 then
      match rest with
      | b2 :: rest2 =>
        if contByte b2 then
          (utf8Decode? rest2).map (fun cs =>
            Char.ofNat ((b1.toNat - 0xC0) * 0x40 + (b2.toNat - 0x80)) :: cs)
        else none
      | [] => none
    else if b1.toNat < 0xF0 then
      match rest with
      | b2 :: b3 :: rest3 =>
        if contByte b2 && contByte b3
            && !(b1.toNat == 0xE0 && b2.toNat < 0xA0)
            && !(b1.toNat == 0xED && 0xA0 ≤ b2.toNat) then
          (utf8Decode? rest3).map (fun cs =>
            Char.ofNat ((b1.toNat - 0xE0) * 0x1000
              + (b2.toNat - 0x80) * 0x40 + (b3.toNat - 0x80)) :: cs)
        else none
      | _ => none
    else if b1.toNat < 0xF5 then
      match rest with
      | b2 :: b3 :: b4 :: rest4 =>
        if contByte b2 && contByte b3 && contByte b4
            && !(b1.toNat == 0xF0 && b2.toNat < 0x90)
            && !(b1.toNat == 0xF4 && 0x90 ≤ b2.toNat) then
          (utf8Decode? rest4).map (fun cs =>
            Char.ofNat ((b1.toNat - 0xF0) * 0x40000 + (b2.toNat - 0x80) * 0x1000
              + (b3.toNat - 0x80) * 0x40 + (b4.toNat - 0x80)) :: cs)
        else none
      | _ => none
    else none

/-! ## Splitting text -/

/-- Splitting a character sequence at every occurrence of a separator,
with the semantics of Rust `str::split(sep)`: the result is never empty,
an empty input yields one empty piece, and a trailing separator yields a
trailing empty piece. -/
def splitOnChar (sep : Char) : List Char → List (List Char)
  | [] => [[]]
  | c :: rest =>
    if c = sep then [] :: splitOnChar sep rest
    else
      match splitOnChar sep rest with
      | [] => [[c]]
      | l :: ls => (c :: l) :: ls

/-- Splitting a decoded datagram payload on line-feed, embedding
`msgs.split(newline)` from `DogStatsD::consume_statsd`. -/
def splitLines (cs : List Char) : List (List Char) :=
  splitOnChar (Char.ofNat 10) cs

/-! ## Metric model and wire parser

Modelled from the spec: `src/dogstatsd/src/metric.rs` is not among the
provided sources; the metric model and `parse` below follow the
specification (sections 3, 4.3 and 6).
-/

/-- Modelled from the spec: the three metric kinds selected by the wire
type token, `c` (Counter), `g` (Gauge) and `d` (Distribution). -/
inductive MetricKind where
  | count
  | gauge
  | distribution
deriving DecidableEq

/-- Modelled from the spec: one parsed observation — name, kind, value
and ordered tag sequence.  The 64-bit float value of the source is
modelled as an exact rational. -/
structure Metric where
  name : String
  kind : MetricKind
  value : Rat
  tags : List String
deriving DecidableEq

/-- Modelled from the spec: the typed parse failures — missing value,
unknown type token, non-numeric value. -/
inductive ParseError where
  | missingValue
  | unknownType (token : String)
  | nonNumericValue (valueText : String)
deriving DecidableEq

/-- Numeric value of a sequence of decimal digit characters. -/
def digitsVal (cs : List Char) : Nat :=
  cs.foldl (fun a c => a * 10 + (c.toNat - 48)) 0

/-- Modelled from the spec: numeric-literal recognition for the metric
value — an optional minus sign, an integer part, and an optional
fractional part; anything else is a non-numeric value. -/
def parseDecimal? (cs : List Char) : Option Rat :=
  let signAndBody : Bool × List Char :=
    match cs with
    | '-' :: rest => (true, rest)
    | _ => (false, cs)
  let neg := signAndBody.1
  let body := signAndBody.2
  let ip := body.takeWhile (fun c => !(c = '.' : Bool))
  let fpRest := body.dropWhile (fun c => !(c = '.' : Bool))
  if ip.isEmpty || !(ip.all Char.isDigit) then none
  else
    match fpRest with
    | [] => some (if neg then -(digitsVal ip : Rat) else (digitsVal ip : Rat))
    | _ :: frac =>
      if frac.isEmpty || !(frac.all Char.isDigit) then none
      else
        let q : Rat := (digitsVal ip : Rat) + (digitsVal frac : Rat) / ((10 : Rat) ^ frac.length)
        some (if neg then -q else q)

/-- Modelled from the spec: the wire type token to metric kind mapping. -/
def kindOfToken : List Char → Option MetricKind
  | ['c'] => some MetricKind.count
  | ['g'] => some MetricKind.gauge
  | ['d'] => some MetricKind.distribution
  | _ => none

/-- Modelled from the spec: tag extraction — the first `|`-separated part
beginning with `#` carries the tags, split on comma into `key:value`
strings kept verbatim; a part beginning with `@` (sample rate) is
accepted syntactically and otherwise ignored. -/
def tagsOfExtras : List (List Char) → List String
  | [] => []
  | p :: rest =>
    match p with
    | '#' :: ts => (splitOnChar ',' ts).map String.mk
    | _ => tagsOfExtras rest

/-- Modelled from the spec: the line parser `metric::parse`.  Grammar
`name:value|type[|@sample_rate][|#tag1:val1,...]`; failure modes are a
missing `:`-separated value or missing type part (`missingValue`), a type
token other than `c`/`g`/`d` (`unknownType`) and a value that is not a
numeric literal (`nonNumericValue`). -/
def parse (line : String) : Except ParseError Metric :=
  match splitOnChar '|' line.data with
  | nameVal :: typeTok :: extras =>
    let name := nameVal.takeWhile (fun c => !(c = ':' : Bool))
    match nameVal.dropWhile (fun c => !(c = ':' : Bool)) with
    | _ :: valChars =>
      if valChars.isEmpty then Except.error ParseError.missingValue
      else
        match kindOfToken typeTok with
        | none => Except.error (ParseError.unknownType (String.mk typeTok))
        | some k =>
          match parseDecimal? valChars with
          | none => Except.error (ParseError.nonNumericValue (String.mk valChars))
          | some v => Except.ok ⟨String.mk name, k, v, tagsOfExtras extras⟩
    | [] => Except.error ParseError.missingValue
  | _ => Except.error ParseError.missingValue

/-! ## Aggregator

Modelled from the spec: `src/dogstatsd/src/aggregator.rs` is not among
the provided sources; the bounded table below follows the specification
(sections 3 and 4.4).
-/

/-- Modelled from the spec: the metric identity — the (name, tag
sequence) pair two observations must share to be merged (the source does
not sort tags, so the order is kept). -/
abbrev MetricId := String × List String

/-- The identity of a metric. -/
def Metric.metricId (m : Metric) : MetricId :=
  (m.name, m.tags)

/-- Modelled from the spec: per-identity accumulated state — running sum
for counters, last value for gauges, and the value population for
distributions (the quantile sketch is modelled by the exact population it
ingested; serialization is out of scope). -/
inductive Entry where
  | counter (sum : Rat)
  | gauge (last : Rat)
  | dist (values : List Rat)
deriving DecidableEq

/-- Modelled from the spec: the fresh entry created for a newly tracked
identity. -/
def Entry.init (m : Metric) : Entry :=
  match m.kind with
  | MetricKind.count => Entry.counter m.value
  | MetricKind.gauge => Entry.gauge m.value
  | MetricKind.distribution => Entry.dist [m.value]

/-- Modelled from the spec: the per-kind accumulation rule — sum for
Counter, replace for Gauge, ingest for Distribution.  The spec leaves a
kind-mismatched merge for one identity open; the model re-initializes the
entry from the incoming observation in that case (no claim depends on
it). -/
def Entry.merge (e : Entry) (m : Metric) : Entry :=
  match m.kind, e with
  | MetricKind.count, Entry.counter s => Entry.counter (s + m.value)
  | MetricKind.gauge, Entry.gauge _ => Entry.gauge m.value
  | MetricKind.distribution, Entry.dist vs => Entry.dist (vs ++ [m.value])
  | _, _ => Entry.init m

/-- Modelled from the spec: the insert failure — the table is at capacity
for a new identity. -/
inductive AggregatorError where
  | capacityFull
deriving DecidableEq

/-- Modelled from the spec: the concurrency-safe bounded store — default
tags applied at export, a fixed capacity (maximum distinct identities),
and the identity-to-entry table (kept in insertion order). -/
structure Aggregator where
  defaultTags : List String
  capacity : Nat
  entries : List (MetricId × Entry)
deriving DecidableEq

/-- Modelled from the spec: `Aggregator::new` fails on a zero capacity. -/
def Aggregator.new (defaultTags : List String) (capacity : Nat) : Option Aggregator :=
  if capacity = 0 then none else some ⟨defaultTags, capacity, []⟩

/-- Modelled from the spec: `Aggregator::insert` — an insert for a
tracked identity always succeeds and mutates only that entry; an insert
for an untracked identity succeeds while the table is below capacity and
fails with a capacity error once it is full (never evicting or growing). -/
def Aggregator.insert (agg : Aggregator) (m : Metric) : Except AggregatorError Aggregator :=
  if (agg.entries.find? (fun p => decide (p.1 = m.metricId))).isSome then
    Except.ok { agg with
      entries := agg.entries.map (fun p => if p.1 = m.metricId then (p.1, p.2.merge m) else p) }
  else if agg.entries.length < agg.capacity then
    Except.ok { agg with entries := agg.entries ++ [(m.metricId, Entry.init m)] }
  else Except.error AggregatorError.capacityFull

/-! ## The ingestion pipeline (`src/dogstatsd/src/dogstatsd.rs`) -/

/-- The service-check sentinel `_sc|` of `DogStatsD::insert_metrics`. -/
def scSentinel : List Char := ['_', 's', 'c', '|']

/-- The event sentinel of `DogStatsD::insert_metrics` (underscore, `e`,
opening brace). -/
def eventSentinel : List Char := ['_', 'e', Char.ofNat 123]

/-- The frame filter of `DogStatsD::insert_metrics`: a candidate line is
kept exactly when it is non-empty, does not begin with the service-check
sentinel and does not begin with the event sentinel (embedding
`!m.is_empty() && !m.starts_with(sc) && !m.starts_with(e)`). -/
def keepLine (m : List Char) : Bool :=
  !m.isEmpty && !(scSentinel.isPrefixOf m) && !(eventSentinel.isPrefixOf m)

/-- Embedding of `m.replace(newline, "")` applied to each kept line. -/
def replaceNewlines (l : List Char) : List Char :=
  l.filter (fun c => decide (¬(c = Char.ofNat 10)))

/-- One log entry of the `error!("Failed to parse metric {}: {}", m, e)`
call: the line text passed to `parse` together with the typed failure. -/
abbrev LogEntry := String × ParseError

/-- The parsing pass of `DogStatsD::insert_metrics` over the kept lines,
in line order: successfully parsed metrics are collected, each failing
line contributes one parse-failure log entry and nothing else
(embedding the `filter_map` with its error branch). -/
def parseLines : List (List Char) → List Metric × List LogEntry
  | [] => ([], [])
  | l :: ls =>
    let rest := parseLines ls
    match parse (String.mk l) with
    | Except.ok m => (m :: rest.1, rest.2)
    | Except.error e => (rest.1, (String.mk l, e) :: rest.2)

/-- Observable events of one `insert_metrics` call: acquiring the
aggregator's exclusive lock, one insert call per metric, and releasing
the lock. -/
inductive Event where
  | lockAcquire
  | insertCall (m : Metric)
  | lockRelease
deriving DecidableEq

/-- The insert loop of `DogStatsD::insert_metrics` run under the lock:
`let _ = guarded_aggregator.insert(a_valid_value)` for each metric in
order — the result of each insert is discarded, so a failed insert
leaves the aggregator unchanged and the loop moves to the next metric.
Returns the final aggregator together with the insert-call events. -/
def insertLoop : Aggregator → List Metric → Aggregator × List Event
  | agg, [] => (agg, [])
  | agg, m :: ms =>
    let next :=
      match agg.insert m with
      | Except.ok a => a
      | Except.error _ => agg
    let rest := insertLoop next ms
    (rest.1, Event.insertCall m :: rest.2)

/-- The lines `DogStatsD::insert_metrics` passes to `parse`: the
candidate lines that survive the frame filter, each with line-feed
characters removed. -/
def keptLinesOf (msg : List (List Char)) : List (List Char) :=
  (msg.filter keepLine).map replaceNewlines

/-- The metrics of a datagram's candidate lines that parse successfully
(`all_valid_metrics` in `DogStatsD::insert_metrics`), in line order. -/
def validMetricsOf (msg : List (List Char)) : List Metric :=
  (parseLines (keptLinesOf msg)).1

/-- The parse-failure log entries `DogStatsD::insert_metrics` emits for a
datagram's candidate lines, in line order. -/
def parseFailLogsOf (msg : List (List Char)) : List LogEntry :=
  (parseLines (keptLinesOf msg)).2

/-- Result of one `insert_metrics` call: the aggregator state after the
call, the lines passed to `parse`, the parse-failure log entries, and
the lock/insert event trace. -/
structure InsertMetricsResult where
  agg : Aggregator
  parsedLines : List (List Char)
  logs : List LogEntry
  events : List Event
deriving DecidableEq

/-- Embedding of `DogStatsD::insert_metrics`: filter the candidate
lines, parse the kept lines logging per-line failures, and — only when
at least one metric parsed — acquire the aggregator lock once, insert
every parsed metric in order discarding individual insert failures, and
release the lock. -/
def insert_metrics (agg : Aggregator) (msg : List (List Char)) : InsertMetricsResult :=
  if (validMetricsOf msg).isEmpty then
    { agg := agg, parsedLines := keptLinesOf msg, logs := parseFailLogsOf msg, events := [] }
  else
    { agg := (insertLoop agg (validMetricsOf msg)).1
      parsedLines := keptLinesOf msg
      logs := parseFailLogsOf msg
      events := Event.lockAcquire ::
        ((insertLoop agg (validMetricsOf msg)).2 ++ [Event.lockRelease]) }

/-! ## Datagram source (`BufferReader`) -/

/-- The fixed receive-buffer size of the live reader (`let mut buf =
[0; 8192]` in `BufferReader::read`). -/
def udpRecvBufSize : Nat := 8192

/-- The effect of `socket.recv_from(&mut buf)` on the 8192-byte buffer:
the arriving datagram is copied into the buffer truncated to the buffer
size, the rest of the buffer keeps its zero fill, and the returned count
is the number of bytes written. -/
def udpRecv (dgram : List UInt8) : Nat × List UInt8 :=
  let amt := min dgram.length udpRecvBufSize
  (amt, dgram.take udpRecvBufSize ++ List.replicate (udpRecvBufSize - amt) 0)

/-- The two datagram sources of `dogstatsd.rs`: the live UDP socket
reader (the datagram a `read` receives is supplied as an argument) and
the fixed-buffer test mirror.  The origin address, used only for a debug
log line, is not modelled. -/
inductive BufferReader where
  | udpSocketReader
  | mirrorReader (data : List UInt8)

/-- Embedding of `BufferReader::read`: the UDP variant receives the
incoming datagram into the fixed buffer and returns the first `amt`
bytes (`buf[..amt].to_owned()`); the mirror variant returns its fixed
buffer. -/
def BufferReader.read : BufferReader → List UInt8 → List UInt8
  | BufferReader.udpSocketReader, incoming =>
    let r := udpRecv incoming
    r.2.take r.1
  | BufferReader.mirrorReader data, _ => data

/-! ## One loop iteration (`consume_statsd`) and the loop (`spin`) -/

/-- Result of one `consume_statsd` iteration.  `panicked` is true when
the `expect("couldn't parse as string")` on the UTF-8 decode fires: the
iteration then produces no logs, no events, and leaves the aggregator
untouched, and the panic unwinds the loop. -/
structure ConsumeResult where
  agg : Aggregator
  parsedLines : List (List Char)
  logs : List LogEntry
  events : List Event
  panicked : Bool
deriving DecidableEq

/-- Embedding of `DogStatsD::consume_statsd`: read one datagram, decode
it as UTF-8 (the source treats a decode failure as fatal via `expect`),
split the payload on line-feed and run `insert_metrics`. -/
def consume_statsd (reader : BufferReader) (agg : Aggregator)
    (incoming : List UInt8) : ConsumeResult :=
  match utf8Decode? (reader.read incoming) with
  | none => { agg := agg, parsedLines := [], logs := [], events := [], panicked := true }
  | some msgs =>
    let r := insert_metrics agg (splitLines msgs)
    { agg := r.agg, parsedLines := r.parsedLines, logs := r.logs
      events := r.events, panicked := false }

/-- Result of running `spin`: the final aggregator, the iteration
indices at which a datagram was read and processed (in order), and
whether the run ended in a panic. -/
structure SpinResult where
  agg : Aggregator
  reads : List Nat
  panicked : Bool
deriving DecidableEq

/-- Embedding of `DogStatsD::spin` over the live reader: each iteration
first runs `consume_statsd` on the next datagram and only then evaluates
the cancellation token; on cancellation the loop exits without further
reads.  `dgrams i` is the datagram iteration `i` receives, `cancelled i`
is the token value at the check following iteration `i`, and `fuel`
bounds the otherwise unbounded `while`. -/
def spinLoop (dgrams : Nat → List UInt8) (cancelled : Nat → Bool) :
    Nat → Nat → Aggregator → SpinResult
  | 0, _, agg => { agg := agg, reads := [], panicked := false }
  | fuel + 1, i, agg =>
    let r := consume_statsd BufferReader.udpSocketReader agg (dgrams i)
    if r.panicked then { agg := r.agg, reads := [i], panicked := true }
    else if cancelled i then { agg := r.agg, reads := [i], panicked := false }
    else
      let rest := spinLoop dgrams cancelled fuel (i + 1) r.agg
      { agg := rest.agg, reads := i :: rest.reads, panicked := rest.panicked }

/-- The arguments of the insert calls recorded in an event trace, in
order. -/
def insertCallArgs (evs : List Event) : List Metric :=
  evs.filterMap (fun e =>
    match e with
    | Event.insertCall m => some m
    | _ => none)

/-! ## Shared lemmas about the embedding -/

/-- Splitting never yields an empty list of pieces. -/
theorem splitOnChar_ne_nil (sep : Char) (cs : List Char) : splitOnChar sep cs ≠ [] := by
  induction cs with
  | nil => simp [splitOnChar]
  | cons c rest ih =>
    simp only [splitOnChar]
    by_cases h : c = sep
    · simp [h]
    · rw [if_neg h]
      cases hs : splitOnChar sep rest with
      | nil => simp
      | cons l ls => simp

/-- No piece produced by `splitOnChar` contains the separator. -/
theorem sep_not_mem_of_mem_splitOnChar (sep : Char) (cs : List Char) :
    ∀ p ∈ splitOnChar sep cs, sep ∉ p := by
  induction cs with
  | nil =>
    intro p hp
    simp only [splitOnChar, List.mem_singleton] at hp
    simp [hp]
  | cons c rest ih =>
    intro p hp
    simp only [splitOnChar] at hp
    by_cases h : c = sep
    · rw [if_pos h] at hp
      rcases List.mem_cons.1 hp with h1 | h1
      · simp [h1]
      · exact ih p h1
    · rw [if_neg h] at hp
      cases hs : splitOnChar sep rest with
      | nil => exact absurd hs (splitOnChar_ne_nil sep rest)
      | cons l ls =>
        rw [hs] at hp
        have hl : l ∈ splitOnChar sep rest := by
          rw [hs]; exact List.mem_cons_self l ls
        rcases List.mem_cons.1 hp with h1 | h1
        · subst h1
          intro hmem
          rcases List.mem_cons.1 hmem with h2 | h2
          · exact h h2.symm
          · exact ih l hl h2
        · refine ih p ?_
          rw [hs]
          exact List.mem_cons.2 (Or.inr h1)

/-- Removing line-feeds from a line that has none is the identity. -/
theorem replaceNewlines_eq_self {l : List Char} (h : Char.ofNat 10 ∉ l) :
    replaceNewlines l = l := by
  unfold replaceNewlines
  rw [List.filter_eq_self]
  intro c hc
  simp only [decide_eq_true_eq]
  intro hcn
  exact h (hcn ▸ hc)

/-- Mapping a function that fixes every member of a list is the identity. -/
theorem map_eq_self_of_mem {α : Type} (f : α → α) :
    ∀ (l : List α), (∀ a ∈ l, f a = a) → l.map f = l
  | [], _ => rfl
  | a :: l, h => by
    simp only [List.map_cons]
    rw [h a (List.mem_cons_self a l),
      map_eq_self_of_mem f l (fun b hb => h b (List.mem_cons.2 (Or.inr hb)))]

/-- On lines obtained by splitting a payload on line-feed, the line-feed
removal step of `insert_metrics` is the identity, so the lines passed to
`parse` are exactly the candidate lines that survive the frame filter. -/
theorem keptLinesOf_splitLines (cs : List Char) :
    keptLinesOf (splitLines cs) = (splitLines cs).filter keepLine := by
  unfold keptLinesOf
  refine map_eq_self_of_mem replaceNewlines _ (fun p hp => ?_)
  exact replaceNewlines_eq_self
    (sep_not_mem_of_mem_splitOnChar (Char.ofNat 10) cs p (List.mem_of_mem_filter hp))

/-- The metrics collected by the parsing pass are the successful parses
of its input lines, in order. -/
theorem parseLines_fst (L : List (List Char)) :
    (parseLines L).1 = L.filterMap (fun l => (parse (String.mk l)).toOption) := by
  induction L with
  | nil => rfl
  | cons l ls ih =>
    cases hp : parse (String.mk l) with
    | ok m => simp [parseLines, List.filterMap_cons, hp, Except.toOption, ih]
    | error e => simp [parseLines, List.filterMap_cons, hp, Except.toOption, ih]

/-- The log entries emitted by the parsing pass are exactly one entry per
failing input line, in order. -/
theorem parseLines_snd (L : List (List Char)) :
    (parseLines L).2 = L.filterMap (fun l =>
      match parse (String.mk l) with
      | Except.ok _ => none
      | Except.error e => some ((String.mk l, e) : LogEntry)) := by
  induction L with
  | nil => rfl
  | cons l ls ih =>
    cases hp : parse (String.mk l) with
    | ok m => simp [parseLines, List.filterMap_cons, hp, ih]
    | error e => simp [parseLines, List.filterMap_cons, hp, ih]

/-- The insert loop makes one insert call per metric, in order. -/
theorem insertLoop_events (agg : Aggregator) (ms : List Metric) :
    (insertLoop agg ms).2 = ms.map Event.insertCall := by
  induction ms generalizing agg with
  | nil => rfl
  | cons m ms ih => simp [insertLoop, ih]

/-- The insert loop over a concatenation threads the aggregator through
the first part and then the second. -/
theorem insertLoop_append (agg : Aggregator) (ms₁ ms₂ : List Metric) :
    (insertLoop agg (ms₁ ++ ms₂)).1 = (insertLoop (insertLoop agg ms₁).1 ms₂).1 := by
  induction ms₁ generalizing agg with
  | nil => simp [insertLoop]
  | cons m ms ih => simp [insertLoop, ih]

/-- The lines `insert_metrics` passes to `parse`. -/
theorem insert_metrics_parsedLines (agg : Aggregator) (msg : List (List Char)) :
    (insert_metrics agg msg).parsedLines = keptLinesOf msg := by
  unfold insert_metrics
  split <;> rfl

/-- The log entries of `insert_metrics` are the parse-failure entries of
the kept lines: insert outcomes contribute nothing to the log. -/
theorem insert_metrics_logs (agg : Aggregator) (msg : List (List Char)) :
    (insert_metrics agg msg).logs = parseFailLogsOf msg := by
  unfold insert_metrics
  split <;> rfl

/-- The aggregator after `insert_metrics` is the insert loop run over
the successfully parsed metrics. -/
theorem insert_metrics_agg (agg : Aggregator) (msg : List (List Char)) :
    (insert_metrics agg msg).agg = (insertLoop agg (validMetricsOf msg)).1 := by
  cases hv : validMetricsOf msg with
  | nil => simp [insert_metrics, hv, insertLoop]
  | cons m ms => simp [insert_metrics, hv]

/-- The insert-call arguments of the lock-acquire / inserts / lock-release
trace are the inserted metrics. -/
theorem insertCallArgs_sandwich (ms : List Metric) :
    insertCallArgs (Event.lockAcquire ::
      (ms.map Event.insertCall ++ [Event.lockRelease])) = ms := by
  have core : ∀ ms : List Metric,
      insertCallArgs (ms.map Event.insertCall ++ [Event.lockRelease]) = ms := by
    intro ms
    induction ms with
    | nil => rfl
    | cons m ms ih => simp only [insertCallArgs, List.map_cons, List.cons_append,
        List.filterMap_cons] at ih ⊢; rw [ih]
  simp only [insertCallArgs, List.filterMap_cons] at core ⊢
  exact core ms

/-- The insert calls of one `insert_metrics` call are exactly the
successfully parsed metrics, in order. -/
theorem insertCallArgs_insert_metrics (agg : Aggregator) (msg : List (List Char)) :
    insertCallArgs ((insert_metrics agg msg).events) = validMetricsOf msg := by
  cases hv : validMetricsOf msg with
  | nil => simp [insert_metrics, hv, insertCallArgs]
  | cons m ms =>
    simp only [insert_metrics, hv, List.isEmpty_cons, Bool.false_eq_true, if_false]
    rw [insertLoop_events]
    exact insertCallArgs_sandwich (m :: ms)

/-! ## Claim theorems -/

/-- C2: for every line obtained by splitting a decoded datagram payload on
line-feed, the line is passed to the metric parser if and only if it is
kept by the frame filter (non-empty, not beginning with the service-check
sentinel, not beginning with the event sentinel): the lines passed to
`parse` are exactly the filtered candidate lines, every parse-failure log
entry stems from a kept line, and every metric reaching the aggregator
stems from a kept line — dropped lines produce neither. -/
theorem filter_before_parse (agg : Aggregator) (cs : List Char) :
    (insert_metrics agg (splitLines cs)).parsedLines = (splitLines cs).filter keepLine
    ∧ (insert_metrics agg (splitLines cs)).logs =
        ((splitLines cs).filter keepLine).filterMap (fun l =>
          match parse (String.mk l) with
          | Except.ok _ => none
          | Except.error e => some ((String.mk l, e) : LogEntry))
    ∧ insertCallArgs ((insert_metrics agg (splitLines cs)).events) =
        ((splitLines cs).filter keepLine).filterMap
          (fun l => (parse (String.mk l)).toOption) := by
  refine ⟨?_, ?_, ?_⟩
  · rw [insert_metrics_parsedLines, keptLinesOf_splitLines]
  · rw [insert_metrics_logs]
    unfold parseFailLogsOf
    rw [keptLinesOf_splitLines, parseLines_snd]
  · rw [insertCallArgs_insert_metrics]
    unfold validMetricsOf
    rw [keptLinesOf_splitLines, parseLines_fst]

/-- C3: within one datagram, a parse failure on a candidate line is
logged and only that line is discarded: the log entries are exactly one
per failing kept line, every other kept line is still parsed and its
metric still inserted (the insert calls are exactly the successful
parses, in order), and the batch insert over the parsed metrics still
runs — no single-line failure aborts the batch. -/
theorem per_line_failure_isolated (agg : Aggregator) (lines : List (List Char)) :
    (insert_metrics agg lines).logs =
        (keptLinesOf lines).filterMap (fun l =>
          match parse (String.mk l) with
          | Except.ok _ => none
          | Except.error e => some ((String.mk l, e) : LogEntry))
    ∧ insertCallArgs ((insert_metrics agg lines).events) =
        (keptLinesOf lines).filterMap (fun l => (parse (String.mk l)).toOption)
    ∧ (insert_metrics agg lines).agg = (insertLoop agg (validMetricsOf lines)).1 := by
  refine ⟨?_, ?_, insert_metrics_agg agg lines⟩
  · rw [insert_metrics_logs]
    unfold parseFailLogsOf
    rw [parseLines_snd]
  · rw [insertCallArgs_insert_metrics]
    unfold validMetricsOf
    rw [parseLines_fst]

/-- C5: for every datagram, all successfully parsed metrics are inserted
under a single acquisition of the aggregator's exclusive lock: the event
trace of one `consume_statsd` iteration is either empty (no lock touched)
or exactly one lock acquisition, followed by the insert calls of the whole
batch, followed by one lock release. -/
theorem batch_under_single_lock (reader : BufferReader) (agg : Aggregator)
    (incoming : List UInt8) :
    (consume_statsd reader agg incoming).events = []
    ∨ ∃ cs : List Char,
        utf8Decode? (reader.read incoming) = some cs
        ∧ (validMetricsOf (splitLines cs)).isEmpty = false
        ∧ (consume_statsd reader agg incoming).events =
            Event.lockAcquire ::
              ((validMetricsOf (splitLines cs)).map Event.insertCall
                ++ [Event.lockRelease]) := by
  cases hd : utf8Decode? (reader.read incoming) with
  | none => exact Or.inl (by simp [consume_statsd, hd])
  | some cs =>
    cases hv : validMetricsOf (splitLines cs) with
    | nil => exact Or.inl (by simp [consume_statsd, hd, insert_metrics, hv])
    | cons m ms =>
      refine Or.inr ⟨cs, rfl, by rw [hv]; rfl, ?_⟩
      simp only [consume_statsd, hd]
      simp only [insert_metrics, hv, List.isEmpty_cons, Bool.false_eq_true, if_false]
      rw [insertLoop_events]

/-- C6: the metrics of a datagram are inserted in the order of the lines
they were parsed from — the sequence of insert calls equals the
subsequence of candidate lines that parse successfully, in line order. -/
theorem inserts_in_line_order (agg : Aggregator) (cs : List Char) :
    insertCallArgs ((insert_metrics agg (splitLines cs)).events) =
      ((splitLines cs).filter keepLine).filterMap
        (fun l => (parse (String.mk l)).toOption) := by
  rw [insertCallArgs_insert_metrics]
  unfold validMetricsOf
  rw [keptLinesOf_splitLines, parseLines_fst]

/-- C9: for a datagram from which no candidate line parses into a valid
metric, the aggregator's lock is never acquired (the event trace is
empty) and the aggregator is left completely unchanged. -/
theorem no_valid_metric_no_lock (agg : Aggregator) (lines : List (List Char))
    (h : validMetricsOf lines = []) :
    (insert_metrics agg lines).events = [] ∧ (insert_metrics agg lines).agg = agg := by
  constructor
  · simp [insert_metrics, h]
  · simp [insert_metrics, h]

/-- Witness for C9 at a concrete datagram holding only a service check,
an empty line, an event and a malformed line. -/
theorem no_valid_metric_no_lock_witness :
    validMetricsOf (splitLines ("_sc|servicecheck|0" ++ "\n" ++ ""
        ++ "\n" ++ "_e\x7b5,10\x7d:event|test event" ++ "\n" ++ "notametric").data) = []
    ∧ ((insert_metrics ⟨[], 1024, []⟩ (splitLines ("_sc|servicecheck|0" ++ "\n" ++ ""
        ++ "\n" ++ "_e\x7b5,10\x7d:event|test event" ++ "\n" ++ "notametric").data)).events = []
      ∧ (insert_metrics ⟨[], 1024, []⟩ (splitLines ("_sc|servicecheck|0" ++ "\n" ++ ""
        ++ "\n" ++ "_e\x7b5,10\x7d:event|test event" ++ "\n" ++ "notametric").data)).agg
          = ⟨[], 1024, []⟩) :=
  ⟨by decide, no_valid_metric_no_lock ⟨[], 1024, []⟩ _ (by decide)⟩

/-- C8: every buffer returned by the live reader's `read` has length at
most the fixed 8192-byte receive-buffer size, and an oversized datagram
is returned truncated to that size rather than rejected — `read` yields
exactly the first 8192 bytes of the arriving datagram. -/
theorem udp_read_truncates (dgram : List UInt8) :
    (BufferReader.udpSocketReader.read dgram).length ≤ udpRecvBufSize
    ∧ BufferReader.udpSocketReader.read dgram = dgram.take udpRecvBufSize := by
  have hb : BufferReader.udpSocketReader.read dgram = dgram.take udpRecvBufSize := by
    show (dgram.take udpRecvBufSize
        ++ List.replicate (udpRecvBufSize - min dgram.length udpRecvBufSize) 0).take
          (min dgram.length udpRecvBufSize) = dgram.take udpRecvBufSize
    have hlen : (dgram.take udpRecvBufSize).length = min dgram.length udpRecvBufSize := by
      rw [List.length_take, Nat.min_comm]
    rw [← hlen, List.take_left]
  refine ⟨?_, hb⟩
  rw [hb, List.length_take]
  exact Nat.min_le_left _ _

/-- C1 counterexample: at the concrete one-byte datagram `0xFF` (not
valid UTF-8), `consume_statsd` does not log and drop the datagram — it
panics (the `expect` on the decode fires) with an empty log, refuting
that an invalid-UTF-8 datagram is logged and the loop continues. -/
theorem utf8_panic_cx :
    (consume_statsd BufferReader.udpSocketReader ⟨[], 1024, []⟩ [255]).panicked = true
    ∧ (consume_statsd BufferReader.udpSocketReader ⟨[], 1024, []⟩ [255]).logs = [] := by
  exact ⟨rfl, rfl⟩

/-- C1 (amended): for every received datagram whose payload is not valid
UTF-8, `consume_statsd` panics instead of logging: the iteration yields
no log entries and no lock or insert events, the aggregator is left
unchanged by that datagram, and the ingestion loop performs no further
iterations — the panic aborts the loop at that read. -/
theorem utf8_failure_panics (dgrams : Nat → List UInt8) (cancelled : Nat → Bool)
    (fuel i : Nat) (agg : Aggregator)
    (h : utf8Decode? (BufferReader.udpSocketReader.read (dgrams i)) = none) :
    consume_statsd BufferReader.udpSocketReader agg (dgrams i)
        = { agg := agg, parsedLines := [], logs := [], events := [], panicked := true }
    ∧ (spinLoop dgrams cancelled (fuel + 1) i agg).reads = [i]
    ∧ (spinLoop dgrams cancelled (fuel + 1) i agg).panicked = true
    ∧ (spinLoop dgrams cancelled (fuel + 1) i agg).agg = agg := by
  have hc : consume_statsd BufferReader.udpSocketReader agg (dgrams i)
      = { agg := agg, parsedLines := [], logs := [], events := [], panicked := true } := by
    simp [consume_statsd, h]
  refine ⟨hc, ?_, ?_, ?_⟩ <;> simp [spinLoop, hc]

/-- Witness for C1 at the concrete one-byte datagram `0xFF`. -/
theorem utf8_failure_panics_witness :
    utf8Decode? (BufferReader.udpSocketReader.read ((fun _ => [255]) 0)) = none
    ∧ consume_statsd BufferReader.udpSocketReader ⟨[], 8, []⟩ ((fun _ => [255]) 0)
        = { agg := ⟨[], 8, []⟩, parsedLines := [], logs := [], events := [], panicked := true } :=
  ⟨by rfl, (utf8_failure_panics (fun _ => [255]) (fun _ => false) 0 0 ⟨[], 8, []⟩ (by rfl)).1⟩

/-- C4 counterexample: with capacity 1 and the concrete datagram holding
two distinct counters, both lines parse (two valid metrics), the second
insert fails at capacity (only one identity is tracked afterwards), yet
the log is empty — refuting that the caller logs the insert failure. -/
theorem insert_failure_not_logged_cx :
    (validMetricsOf (splitLines ("metric1:1|c" ++ "\n" ++ "metric2:2|c").data)).length = 2
    ∧ (insert_metrics ⟨[], 1, []⟩
        (splitLines ("metric1:1|c" ++ "\n" ++ "metric2:2|c").data)).agg.entries.length = 1
    ∧ (insert_metrics ⟨[], 1, []⟩
        (splitLines ("metric1:1|c" ++ "\n" ++ "metric2:2|c").data)).logs = [] := by
  exact ⟨by decide, by decide, by decide⟩

/-- C4 (amended): when an insert of a successfully parsed metric fails
because the aggregator is at capacity for a new identity, the failure is
silently ignored by the caller (the insert result is discarded, and the
log keeps only parse failures), the observation is dropped without retry
(the aggregator is exactly the one threaded past that metric), and the
remaining metrics of the same datagram are still inserted — the insert
calls cover the whole batch and the loop continues. -/
theorem insert_failure_silent_dropped (agg : Aggregator) (lines : List (List Char))
    (pre post : List Metric) (m : Metric)
    (hsplit : validMetricsOf lines = pre ++ m :: post)
    (hfail : (insertLoop agg pre).1.insert m = Except.error AggregatorError.capacityFull) :
    (insert_metrics agg lines).agg = (insertLoop (insertLoop agg pre).1 post).1
    ∧ (insert_metrics agg lines).logs = parseFailLogsOf lines
    ∧ (insert_metrics agg lines).events =
        Event.lockAcquire ::
          ((pre ++ m :: post).map Event.insertCall ++ [Event.lockRelease]) := by
  have hne : (validMetricsOf lines).isEmpty = false := by
    rw [hsplit]
    cases pre <;> simp
  refine ⟨?_, insert_metrics_logs agg lines, ?_⟩
  · rw [insert_metrics_agg, hsplit, insertLoop_append]
    simp [insertLoop, hfail]
  · simp only [insert_metrics, hne, Bool.false_eq_true, if_false]
    rw [insertLoop_events, hsplit]

/-- Witness for C4: capacity 1, datagram with two distinct counters —
the second insert fails at capacity and the hypotheses and first
conclusion are discharged at that concrete input. -/
theorem insert_failure_silent_dropped_witness :
    validMetricsOf (splitLines ("metric1:1|c" ++ "\n" ++ "metric2:2|c").data)
      = [(⟨"metric1", MetricKind.count, 1, []⟩ : Metric)]
        ++ (⟨"metric2", MetricKind.count, 2, []⟩ : Metric) :: []
    ∧ (insertLoop ⟨[], 1, []⟩ [(⟨"metric1", MetricKind.count, 1, []⟩ : Metric)]).1.insert
        (⟨"metric2", MetricKind.count, 2, []⟩ : Metric)
          = Except.error AggregatorError.capacityFull
    ∧ (insert_metrics ⟨[], 1, []⟩ (splitLines ("metric1:1|c" ++ "\n" ++ "metric2:2|c").data)).agg
        = (insertLoop (insertLoop ⟨[], 1, []⟩
            [(⟨"metric1", MetricKind.count, 1, []⟩ : Metric)]).1 []).1 :=
  ⟨by decide, by rfl,
    (insert_failure_silent_dropped ⟨[], 1, []⟩ _
      [(⟨"metric1", MetricKind.count, 1, []⟩ : Metric)] []
      (⟨"metric2", MetricKind.count, 2, []⟩ : Metric) (by decide) (by rfl)).1⟩

/-- Helper: a consume iteration over a datagram that decodes as UTF-8
does not panic. -/
theorem consume_not_panicked (reader : BufferReader) (agg : Aggregator)
    (incoming : List UInt8)
    (h : (utf8Decode? (reader.read incoming)).isSome = true) :
    (consume_statsd reader agg incoming).panicked = false := by
  cases hd : utf8Decode? (reader.read incoming) with
  | none => rw [hd] at h; simp at h
  | some cs => simp [consume_statsd, hd]

/-- Helper for C7: along a stream of decodable datagrams, the loop
started at iteration `i` with the first cancellation `d` checks later
reads exactly iterations `i, i+1, ..., i+d`. -/
theorem spinLoop_reads_range (dgrams : Nat → List UInt8) (cancelled : Nat → Bool)
    (hvalid : ∀ i, (utf8Decode? (BufferReader.udpSocketReader.read (dgrams i))).isSome = true) :
    ∀ (d i fuel : Nat) (agg : Aggregator), cancelled (i + d) = true →
      (∀ e, e < d → cancelled (i + e) = false) → d < fuel →
      (spinLoop dgrams cancelled fuel i agg).reads = List.range' i (d + 1) := by
  intro d
  induction d with
  | zero =>
    intro i fuel agg hk hmin hfuel
    cases fuel with
    | zero => omega
    | succ f =>
      have hp := consume_not_panicked BufferReader.udpSocketReader
        agg (dgrams i) (hvalid i)
      rw [Nat.add_zero] at hk
      simp [spinLoop, hp, hk, List.range']
  | succ d ih =>
    intro i fuel agg hk hmin hfuel
    cases fuel with
    | zero => omega
    | succ f =>
      have hp := consume_not_panicked BufferReader.udpSocketReader
        agg (dgrams i) (hvalid i)
      have hci : cancelled i = false := by
        have := hmin 0 (Nat.succ_pos d)
        rwa [Nat.add_zero] at this
      have hrest := ih (i + 1) f
        (consume_statsd BufferReader.udpSocketReader agg (dgrams i)).agg
        (by have he : i + 1 + d = i + (d + 1) := by omega
            rw [he]; exact hk)
        (fun e he => by
          have h1 := hmin (e + 1) (Nat.succ_lt_succ he)
          have h2 : i + 1 + e = i + (e + 1) := by omega
          rw [h2]; exact h1)
        (Nat.lt_of_succ_lt_succ hfuel)
      simp only [spinLoop, hp, Bool.false_eq_true, if_false, hci]
      rw [hrest]
      exact (List.range'_succ i (d + 1) 1).symm

/-- C7: the loop checks the cancellation signal only after fully
processing a datagram; with `k` the first iteration whose following check
observes cancellation (and enough fuel), the reads performed are exactly
iterations `0` through `k` — the datagram during which cancellation was
requested is still fully processed, and no further read is attempted
after the check observes cancellation. -/
theorem cancellation_checked_between_datagrams (dgrams : Nat → List UInt8)
    (cancelled : Nat → Bool) (agg : Aggregator) (k fuel : Nat)
    (hvalid : ∀ i, (utf8Decode? (BufferReader.udpSocketReader.read (dgrams i))).isSome = true)
    (hk : cancelled k = true) (hmin : ∀ j, j < k → cancelled j = false)
    (hfuel : k < fuel) :
    (spinLoop dgrams cancelled fuel 0 agg).reads = List.range (k + 1) := by
  have h := spinLoop_reads_range dgrams cancelled hvalid k 0 fuel agg
    (by rwa [Nat.zero_add]) (fun e he => by rw [Nat.zero_add]; exact hmin e he) hfuel
  rw [h, List.range_eq_range']

/-- Witness for C7: a constant stream of the datagram `m:1|c` with
cancellation first observed at the check after iteration 1 — the loop
reads exactly iterations 0 and 1. -/
theorem cancellation_checked_between_datagrams_witness :
    (∀ i : Nat, (utf8Decode? (BufferReader.udpSocketReader.read
        ((fun _ => ([109, 58, 49, 124, 99] : List UInt8)) i))).isSome = true)
    ∧ (fun n => decide (1 ≤ n)) 1 = true
    ∧ (spinLoop (fun _ => ([109, 58, 49, 124, 99] : List UInt8))
        (fun n => decide (1 ≤ n)) 3 0 ⟨[], 8, []⟩).reads = List.range 2 :=
  ⟨fun i => by rfl, by rfl,
    cancellation_checked_between_datagrams (fun _ => ([109, 58, 49, 124, 99] : List UInt8))
      (fun n => decide (1 ≤ n)) ⟨[], 8, []⟩ 1 3 (fun i => by rfl) (by rfl)
      (by decide) (by omega)⟩

/-- C10: the spin loop always performs at least one full
read-and-process iteration before its first cancellation check — the
first read is iteration 0 unconditionally, and even when the token is
already cancelled when `spin` starts, exactly that one datagram is read
and processed before the loop exits. -/
theorem one_read_before_first_check (dgrams : Nat → List UInt8)
    (cancelled : Nat → Bool) (agg : Aggregator) (fuel : Nat) :
    (spinLoop dgrams cancelled (fuel + 1) 0 agg).reads.head? = some 0
    ∧ (cancelled 0 = true → (spinLoop dgrams cancelled (fuel + 1) 0 agg).reads = [0]) := by
  cases hp : (consume_statsd BufferReader.udpSocketReader agg (dgrams 0)).panicked with
  | true =>
    constructor
    · simp [spinLoop, hp]
    · intro hc; simp [spinLoop, hp]
  | false =>
    cases hc : cancelled 0 with
    | true =>
      constructor
      · simp [spinLoop, hp, hc]
      · intro hc2; simp [spinLoop, hp, hc]
    | false =>
      constructor
      · simp [spinLoop, hp, hc]
      · intro hc2; simp [hc] at hc2

/-- Witness for C10: with the token already cancelled at start, one
datagram is still read and processed — the reads are exactly `[0]`. -/
theorem one_read_before_first_check_witness :
    (fun _ : Nat => true) 0 = true
    ∧ (spinLoop (fun _ => ([] : List UInt8)) (fun _ => true) (0 + 1) 0 ⟨[], 4, []⟩).reads.head?
        = some 0
    ∧ (spinLoop (fun _ => ([] : List UInt8)) (fun _ => true) (0 + 1) 0 ⟨[], 4, []⟩).reads = [0] :=
  ⟨rfl,
    (one_read_before_first_check (fun _ => ([] : List UInt8)) (fun _ => true) ⟨[], 4, []⟩ 0).1,
    (one_read_before_first_check (fun _ => ([] : List UInt8)) (fun _ => true) ⟨[], 4, []⟩ 0).2 rfl⟩
